import Mathlib

/-!
Shallow embedding of the pg_stat_kcache aggregation core (pg_stat_kcache.c,
version 2.x).  C doubles are modelled as `ℚ`, C integer types as `ℤ`/`ℕ`
(no arithmetic in the embedded code overflows the modelled ranges), the
shared open-addressed hash table as a list of entries with unique keys,
and the on-disk dump file at record granularity.
-/

namespace PgStatKcache

/-- USAGE_DECREASE_FACTOR: usage decay for measured entries, 0.99. -/
def USAGE_DECREASE_FACTOR : ℚ := 99/100

/-- STICKY_DECREASE_FACTOR: usage decay for sticky entries, 0.50. -/
def STICKY_DECREASE_FACTOR : ℚ := 1/2

/-- USAGE_DEALLOC_PERCENT: percentage of entries freed per eviction pass. -/
def USAGE_DEALLOC_PERCENT : ℕ := 5

/-- USAGE_INIT: initial usage of a freshly measured entry. -/
def USAGE_INIT : ℚ := 1

/-- PGSK_FILE_HEADER: magic value 0x0d756e0f of the dump-file format. -/
def PGSK_FILE_HEADER : ℕ := 0x0d756e0f

/-- pgskHashKey: identity of one aggregation bucket (userid, dbid, queryid). -/
structure pgskHashKey where
  userid : ℕ
  dbid : ℕ
  queryid : ℕ
deriving DecidableEq, Repr

/-- pgskCounters: cumulative statistics of one entry.  `calls`, `reads`,
`writes` are C int64; `usage`, `utime`, `stime` are C doubles modelled as ℚ. -/
structure pgskCounters where
  calls : ℤ
  usage : ℚ
  reads : ℤ
  writes : ℤ
  utime : ℚ
  stime : ℚ
deriving DecidableEq, Repr

/-- pgskEntry: one hash-table entry (the per-entry spinlock carries no data
and is not modelled). -/
structure pgskEntry where
  key : pgskHashKey
  counters : pgskCounters
deriving DecidableEq, Repr

instance : Inhabited pgskEntry :=
  ⟨⟨⟨0, 0, 0⟩, ⟨0, 0, 0, 0, 0, 0⟩⟩⟩

/-- pgskSharedState: global shared state (the LWLock carries no data). -/
structure pgskSharedState where
  cur_median_usage : ℚ
deriving DecidableEq, Repr

/-- pgskState: the shared state together with the hash table contents and
the configured capacity pgsk_max. -/
structure pgskState where
  shared : pgskSharedState
  hash : List pgskEntry
  pgsk_max : ℕ
deriving Repr

/-- entry_cmp's ordering: increasing usage order (the qsort comparator of
`entry_cmp` compares `counters.usage`). -/
def entry_le (a b : pgskEntry) : Prop :=
  a.counters.usage ≤ b.counters.usage

instance : DecidableRel entry_le := fun a b =>
  inferInstanceAs (Decidable (a.counters.usage ≤ b.counters.usage))

instance : IsTotal pgskEntry entry_le := ⟨fun x y => le_total x.counters.usage y.counters.usage⟩

instance : IsTrans pgskEntry entry_le := ⟨fun _ _ _ => le_trans⟩

instance : IsRefl pgskEntry entry_le := ⟨fun _ => le_refl _⟩

/-- Decay step applied by pgsk_entry_dealloc while scanning the table:
sticky entries (calls == 0) decay by STICKY_DECREASE_FACTOR, measured
entries by USAGE_DECREASE_FACTOR. -/
def decayEntry (e : pgskEntry) : pgskEntry :=
  if e.counters.calls = 0 then
    { e with counters.usage := e.counters.usage * STICKY_DECREASE_FACTOR }
  else
    { e with counters.usage := e.counters.usage * USAGE_DECREASE_FACTOR }

/-- Decayed entries of pgsk_entry_dealloc sorted into increasing usage
order (the qsort over `entries` with comparator entry_cmp; qsort's order on
usage ties is unspecified, as is the hash_seq_search scan order, so any
sort consistent with entry_le is a faithful model). -/
def deallocSorted (st : pgskState) : List pgskEntry :=
  List.insertionSort entry_le (st.hash.map decayEntry)

/-- Number of victims removed by one pgsk_entry_dealloc pass on a table of
`n` live entries: `nvictims = Min(Max(10, n * USAGE_DEALLOC_PERCENT / 100), n)`. -/
def deallocNvictims (n : ℕ) : ℕ :=
  min (max 10 (n * USAGE_DEALLOC_PERCENT / 100)) n

/-- Entries removed by one pgsk_entry_dealloc pass: the first nvictims
elements of the usage-sorted array. -/
def deallocVictims (st : pgskState) : List pgskEntry :=
  (deallocSorted st).take (deallocNvictims (deallocSorted st).length)

/-- pgsk_entry_dealloc: decay every entry's usage, sort by usage, record
the median usage (entries[i / 2] of the sorted array, only when the table
is non-empty), and remove the nvictims lowest-usage entries. -/
def pgsk_entry_dealloc (st : pgskState) : pgskState :=
  let sorted := deallocSorted st
  let i := sorted.length
  let median :=
    if 0 < i then (sorted.getD (i / 2) default).counters.usage
    else st.shared.cur_median_usage
  { shared := { cur_median_usage := median },
    hash := sorted.drop (deallocNvictims i),
    pgsk_max := st.pgsk_max }

/-- Make-space loop heading pgsk_entry_alloc:
`while (hash_get_num_entries(pgsk_hash) >= pgsk_max) pgsk_entry_dealloc();`
modelled with explicit fuel (each pass on a non-empty table removes at
least one entry, so fuel equal to the live count suffices whenever
pgsk_max ≥ 1; see the termination theorem). -/
def pgsk_make_space : ℕ → pgskState → pgskState
  | 0, st => st
  | fuel + 1, st =>
      if st.pgsk_max ≤ st.hash.length then
        pgsk_make_space fuel (pgsk_entry_dealloc st)
      else st

/-- Counters of a freshly initialized entry: memset to zero, then usage set
to cur_median_usage for a sticky entry and USAGE_INIT otherwise. -/
def initCounters (sticky : Bool) (median : ℚ) : pgskCounters :=
  { calls := 0, usage := if sticky then median else USAGE_INIT,
    reads := 0, writes := 0, utime := 0, stime := 0 }

/-- pgsk_entry_alloc: make space while the table is at capacity, then
find-or-create the entry for `key` (HASH_ENTER); a created entry gets the
freshly initialized counters. -/
def pgsk_entry_alloc (st : pgskState) (key : pgskHashKey) (sticky : Bool) : pgskState :=
  let st' := pgsk_make_space st.hash.length st
  if st'.hash.any (fun e => decide (e.key = key)) then st'
  else
    { st' with
      hash := st'.hash ++ [⟨key, initCounters sticky st'.shared.cur_median_usage⟩] }

/-- Counter update performed by pgsk_entry_store under the entry spinlock:
unstick (usage := USAGE_INIT) if the entry had calls == 0, then add the
delta and bump the call count (the delta's own calls/usage fields are
never read). -/
def updateCounters (c : pgskCounters) (delta : pgskCounters) : pgskCounters :=
  let c' := if c.calls = 0 then { c with usage := USAGE_INIT } else c
  { c' with
    calls := c'.calls + 1,
    reads := c'.reads + delta.reads,
    writes := c'.writes + delta.writes,
    utime := c'.utime + delta.utime,
    stime := c'.stime + delta.stime }

/-- pgsk_entry_store on the table state: look the key up, allocate a
non-sticky entry on miss (the only path running the make-space loop), then
apply the counter update to the entry with that key. -/
def pgsk_entry_store_st (st : pgskState) (key : pgskHashKey) (delta : pgskCounters) :
    pgskState :=
  let st' :=
    if st.hash.any (fun e => decide (e.key = key)) then st
    else pgsk_entry_alloc st key false
  { st' with
    hash := st'.hash.map (fun e =>
      if e.key = key then { e with counters := updateCounters e.counters delta } else e) }

/-- pgsk_entry_reset: remove every live entry; the shared state (and in
particular cur_median_usage) is not touched. -/
def pgsk_entry_reset (st : pgskState) : pgskState :=
  { st with hash := [] }

/-- pgskOp: one table operation — an entry-store (the accumulate path) or
a bare find-or-create (pgsk_entry_alloc, as also used by the loader). -/
inductive pgskOp where
  | store (key : pgskHashKey) (delta : pgskCounters)
  | alloc (key : pgskHashKey) (sticky : Bool)

/-- Apply one table operation to the state. -/
def pgsk_apply_op (st : pgskState) : pgskOp → pgskState
  | .store key delta => pgsk_entry_store_st st key delta
  | .alloc key sticky => pgsk_entry_alloc st key sticky

/-- pgskGlobals: the process globals `pgsk` and `pgsk_hash`, each NULL
(`none`) until pgsk_shmem_startup has run, plus the pgsk_max setting. -/
structure pgskGlobals where
  pgsk : Option pgskSharedState
  pgsk_hash : Option (List pgskEntry)
  pgsk_max : ℕ
deriving Repr

/-- pgsk_entry_store: the accumulate path called from pgsk_ExecutorEnd.
The guard `if (!pgsk || !pgsk_hash) return;` makes it a silent no-op
before shared-memory initialization; otherwise the key is built from
(GetUserId(), MyDatabaseId, queryId) and the table-state operation runs. -/
def pgsk_entry_store (g : pgskGlobals) (userid dbid queryid : ℕ)
    (delta : pgskCounters) : pgskGlobals :=
  match g.pgsk, g.pgsk_hash with
  | some sh, some h =>
      let st := pgsk_entry_store_st ⟨sh, h, g.pgsk_max⟩ ⟨userid, dbid, queryid⟩ delta
      { pgsk := some st.shared, pgsk_hash := some st.hash, pgsk_max := g.pgsk_max }
  | _, _ => g

/-- pg_stat_kcache_reset: the SQL-callable reset.  It raises
ERRCODE_OBJECT_NOT_IN_PREREQUISITE_STATE when `pgsk` is NULL, and
otherwise runs pgsk_entry_reset (which empties the hash table). -/
def pg_stat_kcache_reset (g : pgskGlobals) : Except String pgskGlobals :=
  match g.pgsk with
  | none => .error "pg_stat_kcache must be loaded via shared_preload_libraries"
  | some _ => .ok { g with pgsk_hash := g.pgsk_hash.map (fun _ => []) }

/-- pgskFile: the dump file at record granularity — the 4-byte magic
header, the 4-byte entry count, and the fixed-layout pgskEntry records. -/
structure pgskFile where
  header : ℕ
  num : ℤ
  records : List pgskEntry
deriving Repr

/-- pgsk_shmem_shutdown: dump the statistics to the file (modelled at
record granularity; the temp-file-then-rename step and I/O failure paths
are not modelled).  Nothing is written during a crash (`code ≠ 0`) or when
`pgsk` was never initialized; otherwise the file holds the magic header,
`num_entries = hash_get_num_entries(pgsk_hash)` and one record for every
entry returned by the hash sequence scan. -/
def pgsk_shmem_shutdown (code : ℤ) (g : pgskGlobals) : Option pgskFile :=
  if code ≠ 0 then none
  else
    match g.pgsk, g.pgsk_hash with
    | some _, some h => some ⟨PGSK_FILE_HEADER, (h.length : ℤ), h⟩
    | _, _ => none

/-- pgskLoadResult: outcome of the load-at-startup attempt: the resulting
table and shared state, whether the error path (`goto error`, which logs a
warning) ran, and whether `unlink(PGSK_DUMP_FILE)` was called. -/
structure pgskLoadResult where
  hash : List pgskEntry
  shared : pgskSharedState
  warned : Bool
  deleted : Bool
deriving Repr

/-- Record-reading loop of pgsk_shmem_startup: `num` iterations, each
reading one record (a missing record models an fread failure and takes the
error path, keeping the table contents accumulated so far), skipping
sticky records (calls == 0), and inserting every other record with
pgsk_entry_alloc followed by the counters copy-in. -/
def pgsk_load_loop : ℕ → List pgskEntry → pgskState → pgskState × Bool
  | 0, _, st => (st, false)
  | _ + 1, [], st => (st, true)
  | n + 1, r :: rs, st =>
      if r.counters.calls = 0 then pgsk_load_loop n rs st
      else
        let st' := pgsk_entry_alloc st r.key false
        pgsk_load_loop n rs
          { st' with
            hash := st'.hash.map (fun e =>
              if e.key = r.key then { e with counters := r.counters } else e) }

/-- pgsk_shmem_startup, load portion (the shared-memory allocation itself
is not modelled; `median0` is cur_median_usage as left by initialization).
`none` models ENOENT — an absent file is ignored without warning and
without unlink.  A present file is always unlinked afterwards, on success
as well as on the error path; a bad magic header takes the error path with
nothing loaded. -/
def pgsk_shmem_startup (pgsk_max : ℕ) (median0 : ℚ) (file : Option pgskFile) :
    pgskLoadResult :=
  match file with
  | none => ⟨[], ⟨median0⟩, false, false⟩
  | some f =>
      if f.header ≠ PGSK_FILE_HEADER then ⟨[], ⟨median0⟩, true, true⟩
      else
        let res := pgsk_load_loop f.num.toNat f.records ⟨⟨median0⟩, [], pgsk_max⟩
        ⟨res.1.hash, res.1.shared, res.2, true⟩

/-- timeval: seconds and microseconds, as in struct timeval. -/
structure timeval where
  tv_sec : ℤ
  tv_usec : ℤ
deriving Repr

/-- TIMEVAL_DIFF: end minus start, in (double) seconds. -/
def TIMEVAL_DIFF (s e : timeval) : ℚ :=
  ((e.tv_sec : ℚ) + (e.tv_usec : ℚ) / 1000000) - ((s.tv_sec : ℚ) + (s.tv_usec : ℚ) / 1000000)

/-- rusage: the getrusage fields the module reads (HAVE_GETRUSAGE case). -/
structure rusage where
  ru_utime : timeval
  ru_stime : timeval
  ru_inblock : ℤ
  ru_oublock : ℤ
deriving Repr

/-- Delta computed by pgsk_ExecutorEnd from the rusage snapshots taken by
the start and end hooks: CPU times by TIMEVAL_DIFF, block reads/writes by
ru_inblock/ru_oublock differences; when the executor supplied an
instrumented total runtime (`queryDesc->totaltime`, here `totaltime`)
below `3 / pgsk_linux_hz`, that total replaces utime and stime is forced
to 0.  The delta's calls/usage fields are never read by the store path and
are modelled as 0. -/
def pgsk_ExecutorEnd_delta (rusage_start rusage_end : rusage)
    (totaltime : Option ℚ) (pgsk_linux_hz : ℚ) : pgskCounters :=
  let utime0 := TIMEVAL_DIFF rusage_start.ru_utime rusage_end.ru_utime
  let stime0 := TIMEVAL_DIFF rusage_start.ru_stime rusage_end.ru_stime
  let ut_st : ℚ × ℚ :=
    match totaltime with
    | some t => if t < 3 / pgsk_linux_hz then (t, 0) else (utime0, stime0)
    | none => (utime0, stime0)
  { calls := 0, usage := 0,
    reads := rusage_end.ru_inblock - rusage_start.ru_inblock,
    writes := rusage_end.ru_oublock - rusage_start.ru_oublock,
    utime := ut_st.1, stime := ut_st.2 }

/-- Decay step in the specification's words: multiply the usage by 0.99
if the entry is measured (nonzero call count) and by 0.50 if it is
sticky. -/
def decaySpecFn (e : pgskEntry) : pgskEntry :=
  if e.counters.calls ≠ 0 then
    { e with counters.usage := e.counters.usage * (99/100) }
  else
    { e with counters.usage := e.counters.usage * (1/2) }

/-- Eviction pass in the specification's words: decay every live entry's
usage, record as median the element at index `floor(count / 2)` of the
ascending-by-usage order, and remove the
`min(max(10, floor(count * 5 / 100)), count)` lowest-usage entries. -/
def evictionPassSpec (st : pgskState) : pgskState :=
  let count := st.hash.length
  let ascending := List.insertionSort entry_le (st.hash.map decaySpecFn)
  { shared := { cur_median_usage := (ascending.getD (count / 2) default).counters.usage },
    hash := ascending.drop (min (max 10 (count * 5 / 100)) count),
    pgsk_max := st.pgsk_max }

/-! Concrete states used to instantiate the theorems. -/

/-- Example key. -/
def exKey1 : pgskHashKey := ⟨1, 2, 3⟩

/-- Example measured entry (calls = 1). -/
def exMeasured : pgskEntry := ⟨exKey1, ⟨1, 1, 0, 0, 0, 0⟩⟩

/-- Example sticky entry (calls = 0). -/
def exSticky : pgskEntry := ⟨⟨4, 5, 6⟩, ⟨0, 1, 0, 0, 0, 0⟩⟩

/-- Example dump file claiming two records but holding only one: models a
short read (fread failure) on the second record. -/
def exShortFile : pgskFile := ⟨PGSK_FILE_HEADER, 2, [exMeasured]⟩

/-- Example measured entries with distinct usages 100 < 200 < 300. -/
def cexE1 : pgskEntry := ⟨⟨1, 1, 1⟩, ⟨1, 100, 0, 0, 0, 0⟩⟩

/-- Example measured entry, usage 200. -/
def cexE2 : pgskEntry := ⟨⟨2, 2, 2⟩, ⟨1, 200, 0, 0, 0, 0⟩⟩

/-- Example measured entry, usage 300. -/
def cexE3 : pgskEntry := ⟨⟨3, 3, 3⟩, ⟨1, 300, 0, 0, 0, 0⟩⟩

/-- Example table of three live entries, capacity 8: small enough that one
eviction pass removes every entry (nvictims = min(max(10, 0), 3) = 3). -/
def cexSt : pgskState := ⟨⟨0⟩, [cexE1, cexE2, cexE3], 8⟩

/-- Example table of 18 identical measured entries (capacity 32), the
smallest live count at which an eviction pass stays at or below the
median. -/
def bigSt : pgskState :=
  ⟨⟨0⟩, List.replicate 18 exMeasured, 32⟩

/-! Helper lemmas. -/

theorem decayEntry_eq_decaySpecFn (e : pgskEntry) : decayEntry e = decaySpecFn e := by
  unfold decayEntry decaySpecFn USAGE_DECREASE_FACTOR STICKY_DECREASE_FACTOR
  by_cases h : e.counters.calls = 0 <;> simp [h]

theorem length_deallocSorted (st : pgskState) :
    (deallocSorted st).length = st.hash.length := by
  unfold deallocSorted
  rw [List.length_insertionSort, List.length_map]

theorem deallocNvictims_pos {n : ℕ} (h : 1 ≤ n) : 1 ≤ deallocNvictims n := by
  unfold deallocNvictims USAGE_DEALLOC_PERCENT
  omega

theorem deallocNvictims_le (n : ℕ) : deallocNvictims n ≤ n := by
  unfold deallocNvictims
  omega

theorem length_dealloc (st : pgskState) :
    (pgsk_entry_dealloc st).hash.length
      = st.hash.length - deallocNvictims st.hash.length := by
  unfold pgsk_entry_dealloc
  simp [List.length_drop, length_deallocSorted]

theorem length_dealloc_lt (st : pgskState) (h : 1 ≤ st.hash.length) :
    (pgsk_entry_dealloc st).hash.length < st.hash.length := by
  rw [length_dealloc]
  have h1 := deallocNvictims_pos h
  omega

theorem dealloc_pgsk_max (st : pgskState) :
    (pgsk_entry_dealloc st).pgsk_max = st.pgsk_max := rfl

theorem make_space_succ (n : ℕ) (st : pgskState) :
    pgsk_make_space (n + 1) st =
      if st.pgsk_max ≤ st.hash.length then pgsk_make_space n (pgsk_entry_dealloc st)
      else st := rfl

theorem make_space_spec (fuel : ℕ) :
    ∀ st : pgskState, 1 ≤ st.pgsk_max → st.hash.length ≤ fuel →
      (pgsk_make_space fuel st).hash.length < st.pgsk_max ∧
      (pgsk_make_space fuel st).pgsk_max = st.pgsk_max := by
  induction fuel with
  | zero =>
      intro st hmax hlen
      refine ⟨?_, rfl⟩
      show st.hash.length < st.pgsk_max
      omega
  | succ n ih =>
      intro st hmax hlen
      rw [make_space_succ]
      by_cases hfull : st.pgsk_max ≤ st.hash.length
      · rw [if_pos hfull]
        have hne : 1 ≤ st.hash.length := le_trans hmax hfull
        have hlt := length_dealloc_lt st hne
        have := ih (pgsk_entry_dealloc st)
          (by rw [dealloc_pgsk_max]; exact hmax) (by omega)
        rw [dealloc_pgsk_max] at this
        exact this
      · rw [if_neg hfull]
        exact ⟨by omega, rfl⟩

theorem make_space_of_lt (fuel : ℕ) (st : pgskState)
    (h : st.hash.length < st.pgsk_max) : pgsk_make_space fuel st = st := by
  cases fuel with
  | zero => rfl
  | succ n => rw [make_space_succ, if_neg (by omega)]

theorem alloc_length_le (st : pgskState) (key : pgskHashKey) (sticky : Bool)
    (hmax : 1 ≤ st.pgsk_max) :
    (pgsk_entry_alloc st key sticky).hash.length ≤ st.pgsk_max ∧
    (pgsk_entry_alloc st key sticky).pgsk_max = st.pgsk_max := by
  have hms := make_space_spec st.hash.length st hmax (le_refl _)
  simp only [pgsk_entry_alloc]
  by_cases hfound :
      ((pgsk_make_space st.hash.length st).hash.any (fun e => decide (e.key = key))) = true
  · rw [if_pos hfound]
    exact ⟨by omega, hms.2⟩
  · rw [if_neg hfound]
    refine ⟨?_, hms.2⟩
    simp only [List.length_append, List.length_cons, List.length_nil]
    omega

theorem store_st_length_le (st : pgskState) (key : pgskHashKey)
    (delta : pgskCounters) (hmax : 1 ≤ st.pgsk_max)
    (hlen : st.hash.length ≤ st.pgsk_max) :
    (pgsk_entry_store_st st key delta).hash.length ≤ st.pgsk_max ∧
    (pgsk_entry_store_st st key delta).pgsk_max = st.pgsk_max := by
  simp only [pgsk_entry_store_st]
  by_cases hfound : (st.hash.any (fun e => decide (e.key = key))) = true
  · rw [if_pos hfound]
    constructor
    · simpa using hlen
    · rfl
  · rw [if_neg hfound]
    have h := alloc_length_le st key false hmax
    constructor
    · simpa using h.1
    · exact h.2

theorem map_overwrite_of_not_mem (l : List pgskEntry) (k : pgskHashKey)
    (c : pgskCounters) (h : ∀ e ∈ l, e.key ≠ k) :
    l.map (fun e => if e.key = k then { e with counters := c } else e) = l := by
  induction l with
  | nil => rfl
  | cons a t ih =>
      simp only [List.map_cons, List.cons.injEq]
      constructor
      · rw [if_neg (h a (List.mem_cons_self a t))]
      · exact ih (fun e he => h e (List.mem_cons_of_mem a he))

theorem load_loop_cons (n : ℕ) (r : pgskEntry) (rs : List pgskEntry) (st : pgskState) :
    pgsk_load_loop (n + 1) (r :: rs) st =
      if r.counters.calls = 0 then pgsk_load_loop n rs st
      else
        (let st' := pgsk_entry_alloc st r.key false
         pgsk_load_loop n rs
           { st' with hash := st'.hash.map (fun e =>
               if e.key = r.key then { e with counters := r.counters } else e) }) := rfl

theorem load_loop_short (recs : List pgskEntry) :
    ∀ (n : ℕ) (st : pgskState), recs.length < n →
      (pgsk_load_loop n recs st).2 = true := by
  induction recs with
  | nil =>
      intro n st h
      cases n with
      | zero => omega
      | succ k => rfl
  | cons r rs ih =>
      intro n st h
      cases n with
      | zero => omega
      | succ k =>
          rw [load_loop_cons]
          by_cases hr : r.counters.calls = 0
          · rw [if_pos hr]
            exact ih k st (by simp at h; omega)
          · rw [if_neg hr]
            exact ih k _ (by simp at h; omega)

theorem load_loop_append (recs : List pgskEntry) :
    ∀ st : pgskState,
      (recs.map pgskEntry.key).Nodup →
      (∀ r ∈ recs, ∀ e ∈ st.hash, e.key ≠ r.key) →
      st.hash.length
          + (recs.filter (fun r => decide (r.counters.calls ≠ 0))).length
        ≤ st.pgsk_max →
      pgsk_load_loop recs.length recs st
        = ({ st with
              hash := st.hash
                ++ recs.filter (fun r => decide (r.counters.calls ≠ 0)) }, false) := by
  induction recs with
  | nil =>
      intro st _ _ _
      simp only [List.length_nil, List.filter_nil, List.append_nil]
      rfl
  | cons r rs ih =>
      intro st hnodup hdisj hcap
      obtain ⟨rk, rc⟩ := r
      simp only [List.map_cons, List.nodup_cons, List.mem_map] at hnodup
      obtain ⟨hknotin, hnodup'⟩ := hnodup
      simp only [List.length_cons]
      rw [load_loop_cons]
      by_cases hr : rc.calls = 0
      · rw [if_pos hr]
        rw [List.filter_cons_of_neg (by simp [hr])] at hcap ⊢
        exact ih st hnodup'
          (fun r' hr' e he => hdisj r' (List.mem_cons_of_mem _ hr') e he) hcap
      · rw [if_neg hr]
        rw [List.filter_cons_of_pos (by simp [hr])] at hcap ⊢
        simp only [List.length_cons] at hcap
        have hlt : st.hash.length < st.pgsk_max := by omega
        have hdisj0 : ∀ e ∈ st.hash, e.key ≠ rk := fun e he =>
          hdisj ⟨rk, rc⟩ (List.mem_cons_self _ _) e he
        have hany : (st.hash.any (fun e => decide (e.key = rk))) = false := by
          rw [List.any_eq_false]
          intro e he
          simp [hdisj0 e he]
        show pgsk_load_loop rs.length rs _ = _
        rw [show pgsk_entry_alloc st rk false
              = { st with
                  hash := st.hash
                    ++ [⟨rk, initCounters false st.shared.cur_median_usage⟩] } by
          simp only [pgsk_entry_alloc]
          rw [make_space_of_lt _ _ hlt, hany]
          simp]
        rw [show (st.hash ++ [(⟨rk, initCounters false st.shared.cur_median_usage⟩ :
              pgskEntry)]).map (fun e =>
                if e.key = rk then { e with counters := rc } else e)
            = st.hash ++ [⟨rk, rc⟩] by
          rw [List.map_append, map_overwrite_of_not_mem st.hash rk rc hdisj0]
          simp]
        have := ih ({ st with hash := st.hash ++ [⟨rk, rc⟩] })
          hnodup'
          (by
            intro r' hr' e he
            rcases List.mem_append.mp he with he' | he'
            · exact hdisj r' (List.mem_cons_of_mem _ hr') e he'
            · rcases List.mem_singleton.mp he' with rfl
              intro hkey
              exact hknotin ⟨r', hr', hkey.symm⟩)
          (by simp only [List.length_append, List.length_cons, List.length_nil]; omega)
        rw [this]
        simp

/-! Claim theorems. -/

theorem apply_op_length_le (st : pgskState) (op : pgskOp)
    (hmax : 1 ≤ st.pgsk_max) (hlen : st.hash.length ≤ st.pgsk_max) :
    (pgsk_apply_op st op).hash.length ≤ st.pgsk_max ∧
    (pgsk_apply_op st op).pgsk_max = st.pgsk_max := by
  cases op with
  | store key delta => exact store_st_length_le st key delta hmax hlen
  | alloc key sticky => exact alloc_length_le st key sticky hmax

/-- C1: starting from any table state whose live entry count is at most
the configured capacity pgsk_max (with pgsk_max ≥ 1, as guaranteed by
pg_stat_statements.max), every sequence of entry-store / find-or-create
operations keeps the live entry count at or below pgsk_max: the
make-space loop heading an allocation evicts until the count is strictly
below pgsk_max before the new entry is entered. -/
theorem pgsk_C1_capacity_invariant (ops : List pgskOp) (st : pgskState)
    (hmax : 1 ≤ st.pgsk_max) (hlen : st.hash.length ≤ st.pgsk_max) :
    (ops.foldl pgsk_apply_op st).hash.length ≤ st.pgsk_max := by
  induction ops generalizing st with
  | nil => simpa using hlen
  | cons op rest ih =>
      simp only [List.foldl_cons]
      have h := apply_op_length_le st op hmax hlen
      have hmax' : 1 ≤ (pgsk_apply_op st op).pgsk_max := by
        rw [h.2]; exact hmax
      have hlen' : (pgsk_apply_op st op).hash.length
          ≤ (pgsk_apply_op st op).pgsk_max := by
        rw [h.2]; exact h.1
      have := ih (pgsk_apply_op st op) hmax' hlen'
      rwa [h.2] at this

/-- C1 witness: two observations and one allocation against an empty
table of capacity 1 keep the live count at 1 ≤ 1. -/
theorem pgsk_C1_capacity_invariant_witness :
    1 ≤ (pgskState.mk ⟨0⟩ [] 1).pgsk_max ∧
    (pgskState.mk ⟨0⟩ [] 1).hash.length ≤ (pgskState.mk ⟨0⟩ [] 1).pgsk_max ∧
    ([pgskOp.store exKey1 ⟨0, 0, 0, 0, 0, 0⟩,
      pgskOp.alloc ⟨4, 5, 6⟩ true,
      pgskOp.store ⟨4, 5, 6⟩ ⟨0, 0, 0, 0, 0, 0⟩].foldl pgsk_apply_op
        (pgskState.mk ⟨0⟩ [] 1)).hash.length
      ≤ (pgskState.mk ⟨0⟩ [] 1).pgsk_max :=
  ⟨by decide, by decide,
    pgsk_C1_capacity_invariant
      [pgskOp.store exKey1 ⟨0, 0, 0, 0, 0, 0⟩,
       pgskOp.alloc ⟨4, 5, 6⟩ true,
       pgskOp.store ⟨4, 5, 6⟩ ⟨0, 0, 0, 0, 0, 0⟩]
      (pgskState.mk ⟨0⟩ [] 1) (by decide) (by decide)⟩

/-- C8: on a table with at least one live entry (and pgsk_max ≥ 1) an
eviction pass removes at least one entry — the victim count
min(max(10, floor(count * 5 / 100)), count) is at least 1 — so each pass
strictly decreases the live count and the make-space loop reaches a count
below pgsk_max within (live count) passes. -/
theorem pgsk_C8_eviction_terminates (st : pgskState) (hmax : 1 ≤ st.pgsk_max)
    (hne : 1 ≤ st.hash.length) :
    1 ≤ deallocNvictims st.hash.length ∧
    (pgsk_entry_dealloc st).hash.length < st.hash.length ∧
    (pgsk_make_space st.hash.length st).hash.length < st.pgsk_max :=
  ⟨deallocNvictims_pos hne, length_dealloc_lt st hne,
    (make_space_spec st.hash.length st hmax (le_refl _)).1⟩

/-- C8 witness: a full table of capacity 1 with one live entry; the pass
evicts that entry and the loop exits with 0 < 1 entries. -/
theorem pgsk_C8_eviction_terminates_witness :
    1 ≤ (pgskState.mk ⟨0⟩ [exMeasured] 1).pgsk_max ∧
    1 ≤ (pgskState.mk ⟨0⟩ [exMeasured] 1).hash.length ∧
    (1 ≤ deallocNvictims (pgskState.mk ⟨0⟩ [exMeasured] 1).hash.length ∧
      (pgsk_entry_dealloc (pgskState.mk ⟨0⟩ [exMeasured] 1)).hash.length
        < (pgskState.mk ⟨0⟩ [exMeasured] 1).hash.length ∧
      (pgsk_make_space (pgskState.mk ⟨0⟩ [exMeasured] 1).hash.length
          (pgskState.mk ⟨0⟩ [exMeasured] 1)).hash.length
        < (pgskState.mk ⟨0⟩ [exMeasured] 1).pgsk_max) :=
  ⟨by decide, by decide,
    pgsk_C8_eviction_terminates (pgskState.mk ⟨0⟩ [exMeasured] 1)
      (by decide) (by decide)⟩

/-- C9: reset removes every live entry but leaves the shared
cur_median_usage untouched, so a sticky placeholder allocated after the
reset still inherits the median usage recorded before the reset. -/
theorem pgsk_C9_reset_keeps_median (st : pgskState) (key : pgskHashKey)
    (_hmax : 1 ≤ st.pgsk_max) :
    (pgsk_entry_reset st).hash = [] ∧
    (pgsk_entry_reset st).shared.cur_median_usage = st.shared.cur_median_usage ∧
    (pgsk_entry_alloc (pgsk_entry_reset st) key true).hash
      = [⟨key, { calls := 0, usage := st.shared.cur_median_usage,
                 reads := 0, writes := 0, utime := 0, stime := 0 }⟩] :=
  ⟨rfl, rfl, rfl⟩

/-- C9 witness: at a concrete state with median 7, the sticky entry
allocated after reset carries usage 7. -/
theorem pgsk_C9_reset_keeps_median_witness :
    1 ≤ (pgskState.mk ⟨7⟩ [exMeasured] 4).pgsk_max ∧
    ((pgsk_entry_reset (pgskState.mk ⟨7⟩ [exMeasured] 4)).hash = [] ∧
      (pgsk_entry_reset (pgskState.mk ⟨7⟩ [exMeasured] 4)).shared.cur_median_usage
        = (pgskState.mk ⟨7⟩ [exMeasured] 4).shared.cur_median_usage ∧
      (pgsk_entry_alloc (pgsk_entry_reset (pgskState.mk ⟨7⟩ [exMeasured] 4))
          exKey1 true).hash
        = [⟨exKey1,
            { calls := 0,
              usage := (pgskState.mk ⟨7⟩ [exMeasured] 4).shared.cur_median_usage,
              reads := 0, writes := 0, utime := 0, stime := 0 }⟩]) :=
  ⟨by decide,
    pgsk_C9_reset_keeps_median (pgskState.mk ⟨7⟩ [exMeasured] 4) exKey1 (by decide)⟩

/-- C10: before shared-memory initialization (NULL pgsk or NULL
pgsk_hash) the accumulate path returns silently without touching any
state, while the SQL reset function raises the not-initialized error when
pgsk is NULL. -/
theorem pgsk_C10_uninitialized_guard (g : pgskGlobals) (userid dbid queryid : ℕ)
    (delta : pgskCounters) (h : g.pgsk = none ∨ g.pgsk_hash = none) :
    pgsk_entry_store g userid dbid queryid delta = g ∧
    (g.pgsk = none →
      pg_stat_kcache_reset g
        = .error "pg_stat_kcache must be loaded via shared_preload_libraries") := by
  constructor
  · rcases h with h | h
    · simp [pgsk_entry_store, h]
    · cases hp : g.pgsk <;> simp [pgsk_entry_store, hp, h]
  · intro h0
    simp [pg_stat_kcache_reset, h0]

/-- C10 witness: with both globals NULL, storing is the identity and the
reset call errors. -/
theorem pgsk_C10_uninitialized_guard_witness :
    ((pgskGlobals.mk none none 8).pgsk = none ∨
      (pgskGlobals.mk none none 8).pgsk_hash = none) ∧
    (pgsk_entry_store (pgskGlobals.mk none none 8) 1 2 3 ⟨0, 0, 0, 0, 0, 0⟩
        = pgskGlobals.mk none none 8 ∧
      ((pgskGlobals.mk none none 8).pgsk = none →
        pg_stat_kcache_reset (pgskGlobals.mk none none 8)
          = .error "pg_stat_kcache must be loaded via shared_preload_libraries")) :=
  ⟨by decide,
    pgsk_C10_uninitialized_guard (pgskGlobals.mk none none 8) 1 2 3
      ⟨0, 0, 0, 0, 0, 0⟩ (by decide)⟩

/-- C4 counterexample: at a table holding a single sticky entry
(calls = 0), the orderly-shutdown dump writes that entry's record and a
count of 1, contradicting the claim that entries with call count zero are
not written (they are skipped at load, not at save). -/
theorem pgsk_C4_sticky_written_counterexample :
    pgsk_shmem_shutdown 0 (pgskGlobals.mk (some ⟨0⟩) (some [exSticky]) 4)
      = some ⟨PGSK_FILE_HEADER, 1, [exSticky]⟩ ∧
    exSticky.counters.calls = 0 :=
  ⟨rfl, rfl⟩

/-- C4 amended: during an orderly shutdown (code = 0) with initialized
globals, the dump file is exactly the 4-byte format-version magic, a
4-byte entry count, and one fixed-layout record per live entry — sticky
entries included — with the count field equal to the number of records;
no file is written during a crash (code ≠ 0). -/
theorem pgsk_C4_save_layout (sh : pgskSharedState) (h : List pgskEntry)
    (m : ℕ) (code : ℤ) :
    pgsk_shmem_shutdown 0 (pgskGlobals.mk (some sh) (some h) m)
      = some ⟨PGSK_FILE_HEADER, (h.length : ℤ), h⟩ ∧
    (∀ f, pgsk_shmem_shutdown 0 (pgskGlobals.mk (some sh) (some h) m) = some f →
      f.num = (f.records.length : ℤ)) ∧
    (code ≠ 0 → pgsk_shmem_shutdown code (pgskGlobals.mk (some sh) (some h) m)
      = none) := by
  refine ⟨rfl, ?_, ?_⟩
  · intro f hf
    have : f = ⟨PGSK_FILE_HEADER, (h.length : ℤ), h⟩ := by
      have h0 : pgsk_shmem_shutdown 0 (pgskGlobals.mk (some sh) (some h) m)
          = some ⟨PGSK_FILE_HEADER, (h.length : ℤ), h⟩ := rfl
      rw [h0] at hf
      exact (Option.some.injEq _ _ ▸ hf).symm
    rw [this]
  · intro hc
    simp only [pgsk_shmem_shutdown]
    rw [if_pos hc]

/-- C4 witness: the amended layout at a two-entry table (one measured,
one sticky) and a crash exit code 1. -/
theorem pgsk_C4_save_layout_witness :
    ((1 : ℤ) ≠ 0) ∧
    (pgsk_shmem_shutdown 0
        (pgskGlobals.mk (some ⟨0⟩) (some [exMeasured, exSticky]) 4)
      = some ⟨PGSK_FILE_HEADER, (([exMeasured, exSticky] :
          List pgskEntry).length : ℤ), [exMeasured, exSticky]⟩ ∧
    (∀ f, pgsk_shmem_shutdown 0
          (pgskGlobals.mk (some ⟨0⟩) (some [exMeasured, exSticky]) 4) = some f →
        f.num = (f.records.length : ℤ)) ∧
    ((1 : ℤ) ≠ 0 → pgsk_shmem_shutdown 1
        (pgskGlobals.mk (some ⟨0⟩) (some [exMeasured, exSticky]) 4) = none)) :=
  ⟨by decide, pgsk_C4_save_layout ⟨0⟩ [exMeasured, exSticky] 4 1⟩

/-- C5 counterexample: loading a well-headed file that announces two
records but ends after one (a read error on the second record) warns but
keeps the record already loaded — the run continues with the partially
loaded table, not with an empty one as the claim states. -/
theorem pgsk_C5_partial_load_counterexample :
    (pgsk_shmem_startup 8 0 (some exShortFile)).warned = true ∧
    (pgsk_shmem_startup 8 0 (some exShortFile)).hash = [exMeasured] ∧
    [exMeasured] ≠ ([] : List pgskEntry) :=
  ⟨rfl, rfl, by simp⟩

/-- C5 amended: an absent file leaves the table empty with no warning and
no unlink; a magic-header mismatch warns and leaves the table empty; any
present file is deleted after the attempt, on success and on failure
alike; and a short read (fewer records than the announced count) warns —
the table then continues from whatever was loaded before the failure.
Startup is never aborted: the load is a total function into a result
state. -/
theorem pgsk_C5_load_error_handling (m : ℕ) (q : ℚ) (f : pgskFile) :
    pgsk_shmem_startup m q none = ⟨[], ⟨q⟩, false, false⟩ ∧
    (f.header ≠ PGSK_FILE_HEADER →
      pgsk_shmem_startup m q (some f) = ⟨[], ⟨q⟩, true, true⟩) ∧
    (pgsk_shmem_startup m q (some f)).deleted = true ∧
    (f.records.length < f.num.toNat →
      (pgsk_shmem_startup m q (some f)).warned = true) := by
  refine ⟨rfl, ?_, ?_, ?_⟩
  · intro hh
    simp only [pgsk_shmem_startup]
    rw [if_pos hh]
  · simp only [pgsk_shmem_startup]
    by_cases hh : f.header ≠ PGSK_FILE_HEADER
    · rw [if_pos hh]
    · rw [if_neg hh]
  · intro hshort
    simp only [pgsk_shmem_startup]
    by_cases hh : f.header ≠ PGSK_FILE_HEADER
    · rw [if_pos hh]
    · rw [if_neg hh]
      exact load_loop_short f.records f.num.toNat _ hshort

/-- C5 witness: a file with a corrupt magic header (0) that also
announces one record while holding none. -/
theorem pgsk_C5_load_error_handling_witness :
    ((pgskFile.mk 0 1 []).header ≠ PGSK_FILE_HEADER) ∧
    ((pgskFile.mk 0 1 []).records.length < (pgskFile.mk 0 1 []).num.toNat) ∧
    (pgsk_shmem_startup 8 0 none = ⟨[], ⟨0⟩, false, false⟩ ∧
      ((pgskFile.mk 0 1 []).header ≠ PGSK_FILE_HEADER →
        pgsk_shmem_startup 8 0 (some (pgskFile.mk 0 1 []))
          = ⟨[], ⟨0⟩, true, true⟩) ∧
      (pgsk_shmem_startup 8 0 (some (pgskFile.mk 0 1 []))).deleted = true ∧
      ((pgskFile.mk 0 1 []).records.length < (pgskFile.mk 0 1 []).num.toNat →
        (pgsk_shmem_startup 8 0 (some (pgskFile.mk 0 1 []))).warned = true)) :=
  ⟨by decide, by decide, pgsk_C5_load_error_handling 8 0 (pgskFile.mk 0 1 [])⟩

/-- C7: when the executor supplies an instrumented total runtime below
3 / pgsk_linux_hz, the recorded delta substitutes that total as user time
and forces system time to 0 for that observation; otherwise (total at or
above the threshold, or no instrumentation) the recorded times are the
getrusage end-minus-start differences. -/
theorem pgsk_C7_tick_bias_correction (rs re : rusage) (tt : Option ℚ) (hz : ℚ) :
    (∀ t, tt = some t → t < 3 / hz →
      (pgsk_ExecutorEnd_delta rs re tt hz).utime = t ∧
      (pgsk_ExecutorEnd_delta rs re tt hz).stime = 0) ∧
    (∀ t, tt = some t → ¬ t < 3 / hz →
      (pgsk_ExecutorEnd_delta rs re tt hz).utime
          = TIMEVAL_DIFF rs.ru_utime re.ru_utime ∧
      (pgsk_ExecutorEnd_delta rs re tt hz).stime
          = TIMEVAL_DIFF rs.ru_stime re.ru_stime) ∧
    (tt = none →
      (pgsk_ExecutorEnd_delta rs re tt hz).utime
          = TIMEVAL_DIFF rs.ru_utime re.ru_utime ∧
      (pgsk_ExecutorEnd_delta rs re tt hz).stime
          = TIMEVAL_DIFF rs.ru_stime re.ru_stime) := by
  refine ⟨?_, ?_, ?_⟩
  · intro t ht hlt
    subst ht
    simp [pgsk_ExecutorEnd_delta, hlt]
  · intro t ht hge
    subst ht
    simp [pgsk_ExecutorEnd_delta, hge]
  · intro ht
    subst ht
    simp [pgsk_ExecutorEnd_delta]

/-- C7 witness: the specification's scenario — tick frequency 100 Hz
(threshold 0.03 s) and a host-measured elapsed time of 0.01 s yields
user_time = 0.01 s and system_time = 0. -/
theorem pgsk_C7_tick_bias_correction_witness :
    (some ((1 : ℚ)/100) = some ((1 : ℚ)/100)) ∧
    ((1 : ℚ)/100 < 3 / 100) ∧
    ((pgsk_ExecutorEnd_delta (rusage.mk ⟨0, 0⟩ ⟨0, 0⟩ 0 0)
        (rusage.mk ⟨0, 0⟩ ⟨0, 0⟩ 0 0) (some (1/100)) 100).utime = 1/100 ∧
      (pgsk_ExecutorEnd_delta (rusage.mk ⟨0, 0⟩ ⟨0, 0⟩ 0 0)
        (rusage.mk ⟨0, 0⟩ ⟨0, 0⟩ 0 0) (some (1/100)) 100).stime = 0) :=
  ⟨rfl, by norm_num,
    (pgsk_C7_tick_bias_correction (rusage.mk ⟨0, 0⟩ ⟨0, 0⟩ 0 0)
        (rusage.mk ⟨0, 0⟩ ⟨0, 0⟩ 0 0) (some (1/100)) 100).1
      (1/100) rfl (by norm_num)⟩

/-- C2: on a non-empty table, an eviction pass is exactly the
specification's sequence — decay every live entry's usage (× 0.99 if
measured, × 0.50 if sticky), record the element at index
floor(count / 2) of the ascending-by-usage order as the shared median,
and remove the min(max(10, floor(count·5/100)), count) lowest-usage
entries; and the pass is triggered only when an insert would exceed the
capacity: below capacity the make-space loop does nothing. -/
theorem pgsk_C2_eviction_pass (st : pgskState) (fuel : ℕ) (hne : st.hash ≠ []) :
    pgsk_entry_dealloc st = evictionPassSpec st ∧
    (st.hash.length < st.pgsk_max → pgsk_make_space fuel st = st) := by
  constructor
  · have hmap : st.hash.map decayEntry = st.hash.map decaySpecFn := by
      have : decayEntry = decaySpecFn := funext decayEntry_eq_decaySpecFn
      rw [this]
    have hlen : (List.insertionSort entry_le (st.hash.map decaySpecFn)).length
        = st.hash.length := by
      rw [List.length_insertionSort, List.length_map]
    have hpos : 0 < st.hash.length := List.length_pos.mpr hne
    simp only [pgsk_entry_dealloc, evictionPassSpec, deallocSorted,
      deallocNvictims, USAGE_DEALLOC_PERCENT]
    rw [hmap, hlen, if_pos hpos]
  · intro hlt
    exact make_space_of_lt fuel st hlt

/-- C2 witness: a one-entry table below capacity; the pass decays the
single measured entry by 0.99, records it as median and removes it, while
the make-space loop leaves the state untouched. -/
theorem pgsk_C2_eviction_pass_witness :
    ((pgskState.mk ⟨0⟩ [exMeasured] 4).hash ≠ []) ∧
    (pgsk_entry_dealloc (pgskState.mk ⟨0⟩ [exMeasured] 4)
        = evictionPassSpec (pgskState.mk ⟨0⟩ [exMeasured] 4) ∧
      ((pgskState.mk ⟨0⟩ [exMeasured] 4).hash.length
          < (pgskState.mk ⟨0⟩ [exMeasured] 4).pgsk_max →
        pgsk_make_space 3 (pgskState.mk ⟨0⟩ [exMeasured] 4)
          = pgskState.mk ⟨0⟩ [exMeasured] 4)) :=
  ⟨by simp [pgskState.mk, exMeasured],
    pgsk_C2_eviction_pass (pgskState.mk ⟨0⟩ [exMeasured] 4) 3
      (by simp [pgskState.mk, exMeasured])⟩

/-- C6: saving a table whose identities are unique and whose live count
fits the capacity, then loading the produced file into an empty table of
the same capacity, reproduces exactly the non-sticky entries (call count
nonzero), bit-exact in every field (the model copies whole records; in C
the integer fields are bit-exact and the double fields are preserved by
the binary struct copy), with no warning; records with call count zero
are skipped at load. -/
theorem pgsk_C6_round_trip (sh : pgskSharedState) (h : List pgskEntry)
    (m : ℕ) (q : ℚ) (hnodup : (h.map pgskEntry.key).Nodup)
    (hlen : h.length ≤ m) :
    (pgsk_shmem_startup m q
        (pgsk_shmem_shutdown 0 (pgskGlobals.mk (some sh) (some h) m))).hash
      = h.filter (fun e => decide (e.counters.calls ≠ 0)) ∧
    (pgsk_shmem_startup m q
        (pgsk_shmem_shutdown 0 (pgskGlobals.mk (some sh) (some h) m))).warned
      = false := by
  have hsave : pgsk_shmem_shutdown 0 (pgskGlobals.mk (some sh) (some h) m)
      = some ⟨PGSK_FILE_HEADER, (h.length : ℤ), h⟩ := rfl
  rw [hsave]
  have hloop := load_loop_append h (pgskState.mk ⟨q⟩ [] m) hnodup
    (by intro r _ e he; simp at he)
    (by
      simp only [List.length_nil, Nat.zero_add]
      exact le_trans (List.length_filter_le _ _) hlen)
  simp only [pgsk_shmem_startup]
  rw [if_neg (by simp)]
  simp only [Int.toNat_natCast]
  rw [hloop]
  simp

/-- C6 witness: a two-entry table (one measured, one sticky) of capacity
4 round-trips to exactly the measured entry. -/
theorem pgsk_C6_round_trip_witness :
    (([exMeasured, exSticky].map pgskEntry.key).Nodup) ∧
    (([exMeasured, exSticky] : List pgskEntry).length ≤ 4) ∧
    ((pgsk_shmem_startup 4 0 (pgsk_shmem_shutdown 0
          (pgskGlobals.mk (some ⟨0⟩) (some [exMeasured, exSticky]) 4))).hash
        = [exMeasured, exSticky].filter (fun e => decide (e.counters.calls ≠ 0)) ∧
      (pgsk_shmem_startup 4 0 (pgsk_shmem_shutdown 0
          (pgskGlobals.mk (some ⟨0⟩) (some [exMeasured, exSticky]) 4))).warned
        = false) :=
  ⟨by decide, by decide,
    pgsk_C6_round_trip ⟨0⟩ [exMeasured, exSticky] 4 0 (by decide) (by decide)⟩

/-- C3 counterexample: on a table of three measured entries with decayed
usages 99 < 198 < 297, the recorded median is 198, but the pass removes
min(max(10, 0), 3) = 3 entries — all of them — so the entry with usage
297 > 198 is evicted despite exceeding the recorded median. -/
theorem pgsk_C3_above_median_evicted_counterexample :
    ∃ e ∈ deallocVictims cexSt,
      (pgsk_entry_dealloc cexSt).shared.cur_median_usage < e.counters.usage := by
  have hmap : cexSt.hash.map decayEntry
      = [⟨⟨1, 1, 1⟩, ⟨1, 99, 0, 0, 0, 0⟩⟩, ⟨⟨2, 2, 2⟩, ⟨1, 198, 0, 0, 0, 0⟩⟩,
         ⟨⟨3, 3, 3⟩, ⟨1, 297, 0, 0, 0, 0⟩⟩] := by
    simp [cexSt, cexE1, cexE2, cexE3, decayEntry, USAGE_DECREASE_FACTOR]
    norm_num
  have hsort : deallocSorted cexSt
      = [⟨⟨1, 1, 1⟩, ⟨1, 99, 0, 0, 0, 0⟩⟩, ⟨⟨2, 2, 2⟩, ⟨1, 198, 0, 0, 0, 0⟩⟩,
         ⟨⟨3, 3, 3⟩, ⟨1, 297, 0, 0, 0, 0⟩⟩] := by
    unfold deallocSorted
    rw [hmap]
    norm_num [List.insertionSort, List.orderedInsert, entry_le]
  refine ⟨⟨⟨3, 3, 3⟩, ⟨1, 297, 0, 0, 0, 0⟩⟩, ?_, ?_⟩
  · show _ ∈ (deallocSorted cexSt).take (deallocNvictims (deallocSorted cexSt).length)
    rw [hsort]
    simp [deallocNvictims, USAGE_DEALLOC_PERCENT]
  · have hmedian : (pgsk_entry_dealloc cexSt).shared.cur_median_usage = 198 := by
      simp [pgsk_entry_dealloc, hsort]
    rw [hmedian]
    norm_num

/-- C3 amended: on a table with at least 18 live entries, no entry
removed by an eviction pass has a post-decay usage strictly above the
median usage recorded during that pass.  (Below 18 entries the victim
count min(max(10, floor(count·5/100)), count) exceeds the median index,
so entries above the median are removed too — see the counterexample.) -/
theorem pgsk_C3_victims_at_most_median (st : pgskState) (e : pgskEntry)
    (hbig : 18 ≤ st.hash.length) (he : e ∈ deallocVictims st) :
    e.counters.usage ≤ (pgsk_entry_dealloc st).shared.cur_median_usage := by
  have hslen : (deallocSorted st).length = st.hash.length := length_deallocSorted st
  have hpos : 0 < (deallocSorted st).length := by omega
  have hidx : (deallocSorted st).length / 2 < (deallocSorted st).length :=
    Nat.div_lt_self hpos (by norm_num)
  have hmed : (pgsk_entry_dealloc st).shared.cur_median_usage
      = ((deallocSorted st).get
          ⟨(deallocSorted st).length / 2, hidx⟩).counters.usage := by
    simp only [pgsk_entry_dealloc]
    rw [if_pos hpos, List.getD_eq_getElem _ _ hidx, List.get_eq_getElem]
  rw [deallocVictims] at he
  obtain ⟨j, hj, hget⟩ := List.getElem_of_mem he
  rw [List.length_take] at hj
  have hjnv : j < deallocNvictims (deallocSorted st).length :=
    lt_of_lt_of_le hj (min_le_left _ _)
  have hjlen : j < (deallocSorted st).length :=
    lt_of_lt_of_le hj (min_le_right _ _)
  rw [List.getElem_take] at hget
  have hnv2 : deallocNvictims (deallocSorted st).length
      ≤ (deallocSorted st).length / 2 + 1 := by
    unfold deallocNvictims USAGE_DEALLOC_PERCENT
    omega
  have hjle : j ≤ (deallocSorted st).length / 2 := by omega
  have hs : (deallocSorted st).Sorted entry_le :=
    List.sorted_insertionSort entry_le (st.hash.map decayEntry)
  have hrel := hs.rel_get_of_le
    (a := ⟨j, hjlen⟩) (b := ⟨(deallocSorted st).length / 2, hidx⟩)
    (Fin.mk_le_mk.mpr hjle)
  simp only [List.get_eq_getElem] at hrel
  rw [hmed]
  simp only [List.get_eq_getElem]
  rw [← hget]
  exact hrel

/-- C3 witness: a pass over 18 identical measured entries removes 10 of
them, each with decayed usage equal to the recorded median. -/
theorem pgsk_C3_victims_at_most_median_witness :
    18 ≤ bigSt.hash.length ∧
    decayEntry exMeasured ∈ deallocVictims bigSt ∧
    (decayEntry exMeasured).counters.usage
      ≤ (pgsk_entry_dealloc bigSt).shared.cur_median_usage := by
  have hrepl : deallocSorted bigSt = List.replicate 18 (decayEntry exMeasured) := by
    unfold deallocSorted bigSt
    rw [List.map_replicate]
    exact List.Sorted.insertionSort_eq
      ((List.pairwise_replicate).mpr (Or.inr (le_refl _)))
  have hmem : decayEntry exMeasured ∈ deallocVictims bigSt := by
    show _ ∈ (deallocSorted bigSt).take (deallocNvictims (deallocSorted bigSt).length)
    rw [hrepl]
    simp [deallocNvictims, USAGE_DEALLOC_PERCENT, List.take_replicate,
      List.mem_replicate]
  exact ⟨by decide, hmem,
    pgsk_C3_victims_at_most_median bigSt (decayEntry exMeasured) (by decide) hmem⟩

end PgStatKcache
